import Mathlib

/-!
Verification development for the GitAutoSync folder-watching / GitHub
sync agent (src/main.js).  Each section shallowly embeds one piece of the
source: strings are lists of characters, the event loop is a labelled
step relation, external git/GitHub/filesystem effects are oracle inputs.
-/

namespace GitAutoSync

/-! ### Repository-name sanitization (main.js, sanitizeRepoName, lines 1143-1150)

    return name
      .toLowerCase()
      .replace(/\s+/g, "-")
      .replace(/[^a-z0-9\-_.]/g, "")
      .replace(/^[-_.]+|[-_.]+$/g, "")
      .substring(0, 100);
-/

/-- Separator characters trimmed from the ends by the fourth step. -/
def isSep (c : Char) : Bool :=
  c == '-' || c == '_' || c == '.'

/-- Characters kept by the third step (the class [a-z0-9-_.]). -/
def isAllowed (c : Char) : Bool :=
  ('a' ≤ c && c ≤ 'z') || ('0' ≤ c && c ≤ '9') || isSep c

/-- Whitespace recognised by the regex \s (ASCII part). -/
def isWs (c : Char) : Bool :=
  c == ' ' || c == '\t' || c == '\n' || c == '\r' ||
  c == Char.ofNat 11 || c == Char.ofNat 12

/-- replace(/\s+/g, "-"): every maximal whitespace run becomes one hyphen.
The flag records whether the previous character was part of a run whose
hyphen has already been emitted. -/
def collapseWsAux : Bool → List Char → List Char
  | _, [] => []
  | prevWs, c :: rest =>
    if isWs c then
      (if prevWs then [] else ['-']) ++ collapseWsAux true rest
    else
      c :: collapseWsAux false rest

def collapseWs (l : List Char) : List Char :=
  collapseWsAux false l

/-- Drops the maximal trailing run of separator characters
(the [-_.]+$ alternative of the fourth step). -/
def dropTrailSep : List Char → List Char
  | [] => []
  | c :: rest =>
    let r := dropTrailSep rest
    if r.isEmpty && isSep c then [] else c :: r

/-- replace(/^[-_.]+|[-_.]+$/g, ""): strip leading then trailing separators. -/
def trimSeps (l : List Char) : List Char :=
  dropTrailSep (l.dropWhile isSep)

/-- sanitizeRepoName, with a string as a list of characters.  Note that
substring(0, 100) is applied AFTER the end-trimming, exactly as in the
source. -/
def sanitizeRepoName (name : List Char) : List Char :=
  (trimSeps ((collapseWs (name.map Char.toLower)).filter isAllowed)).take 100

/-! ### Debouncer (main.js, debouncedQueueAdd, lines 998-1019)

A call clears any pending timer for the path and arms a new one 3
time-units ahead; when a timer fires it adds the path to the sync queue,
deletes its timer entry and sets the record status to "queued".  Time is
discrete; the simulator `debRun` consumes the (nondecreasing) call times
and fires a pending timer whenever its deadline is reached at or before
the next call, and once more after the last call. -/

structure DebRec where
  pendingDeadline : Option Nat
  inQueue : Bool
  status : String
  enqueueTimes : List Nat
deriving DecidableEq

/-- Effect of the setTimeout body (lines 1005-1016): syncQueue.add,
debounceTimers.delete, project.status = "queued". -/
def debFire (t : Nat) (st : DebRec) : DebRec :=
  { pendingDeadline := none
    inQueue := true
    status := "queued"
    enqueueTimes := st.enqueueTimes ++ [t] }

/-- Effect of one debouncedQueueAdd call at time t: clearTimeout of the
old timer plus setTimeout of a fresh one due at t + 3. -/
def debCall (t : Nat) (st : DebRec) : DebRec :=
  { st with pendingDeadline := some (t + 3) }

/-- Runs a finite sequence of call times, firing due timers in between,
and lets the final timer fire after the calls stop. -/
def debRun (st : DebRec) : List Nat → DebRec
  | [] =>
    match st.pendingDeadline with
    | some d => debFire d st
    | none => st
  | t :: rest =>
    match st.pendingDeadline with
    | some d =>
      if d ≤ t then debRun (debCall t (debFire d st)) rest
      else debRun (debCall t st) rest
    | none => debRun (debCall t st) rest

/-- State before any call: no timer, path not queued. -/
def debInit : DebRec :=
  { pendingDeadline := none, inQueue := false, status := "ready", enqueueTimes := [] }

/-- Call times form a burst: nondecreasing, with every further call
arriving strictly less than 3 time-units after the previous one. -/
def isBurst : Nat → List Nat → Bool
  | _, [] => true
  | c, t :: rest => (decide (c ≤ t) && decide (t < c + 3)) && isBurst t rest

/-! ### Event-loop interleaving of the change detector and the batch
processor (main.js, checkFolderModifications lines 493-574, processQueue
lines 678-691, startSyncProcessor lines 1046-1054)

checkFolderModifications returns at once when status.isSyncing is set,
but sets no flag of its own; its per-project loop awaits (fs.stat,
setTimeout 50), so other tasks interleave between projects.  processQueue
returns at once when isSyncing is set or the queue is empty, otherwise
sets isSyncing for the whole batch.  `detPhase = some k` means a
detection pass is running with k projects checked so far. -/

structure LoopState where
  isSyncing : Bool
  queueNonempty : Bool
  detProjects : Nat
  detPhase : Option Nat
deriving DecidableEq

inductive StepLabel where
  | detTickSkip
  | detTickStart
  | detStep
  | detFinish
  | batchStart
  | batchFinish
deriving DecidableEq

inductive Step : LoopState → StepLabel → LoopState → Prop where
  | detTickSkip (s : LoopState) :
      s.isSyncing = true → s.detPhase = none →
      Step s StepLabel.detTickSkip s
  | detTickStart (s : LoopState) :
      s.isSyncing = false → s.detPhase = none →
      Step s StepLabel.detTickStart { s with detPhase := some 0 }
  | detStep (s : LoopState) (k : Nat) :
      s.detPhase = some k → k < s.detProjects →
      Step s StepLabel.detStep { s with detPhase := some (k + 1) }
  | detFinish (s : LoopState) :
      s.detPhase = some s.detProjects →
      Step s StepLabel.detFinish { s with detPhase := none }
  | batchStart (s : LoopState) :
      s.isSyncing = false → s.queueNonempty = true →
      Step s StepLabel.batchStart { s with isSyncing := true, queueNonempty := false }
  | batchFinish (s : LoopState) :
      s.isSyncing = true →
      Step s StepLabel.batchFinish { s with isSyncing := false }

/-- Reachability by finitely many interleaved steps. -/
inductive Reach : LoopState → LoopState → Prop where
  | refl (s : LoopState) : Reach s s
  | tail {a b c : LoopState} {l : StepLabel} : Reach a b → Step b l c → Reach a c

/-! ### Registry records and the scheduler (main.js, processQueue lines
678-773, manualSync lines 1101-1119, syncQueue line 41) -/

/-- One registry record (the project objects stored in status.projects). -/
structure ProjRec where
  name : String
  status : String
  message : String
  lastCheck : String
  lastModified : Nat
  hasGitRepo : Bool
  progress : Nat
  currentOperation : String
  error : Option String
deriving DecidableEq

/-- JS Set.add on an insertion-ordered duplicate-free list: adding an
element that is already present is a no-op. -/
def insertS (q : List String) (p : String) : List String :=
  if p ∈ q then q else q ++ [p]

/-- Association-list lookup for the registry map. -/
def lookupA : List (String × ProjRec) → String → Option ProjRec
  | [], _ => none
  | kv :: rest, p => if kv.1 = p then some kv.2 else lookupA rest p

/-- Updates the record stored under a key, in place. -/
def updateReg (reg : List (String × ProjRec)) (p : String) (f : ProjRec → ProjRec) :
    List (String × ProjRec) :=
  reg.map fun kv => if kv.1 = p then (kv.1, f kv.2) else kv

/-- Field writes done just before a project's workflow starts
(processQueue lines 717-722). -/
def markSyncing (r : ProjRec) : ProjRec :=
  { r with status := "syncing", currentOperation := "Başlatılıyor...", progress := 0 }

/-- Field writes done when the workflow returns: success branch lines
736-742, failure branch lines 744-750.  `now` stands for the timestamp
string written into lastCheck on success. -/
def applyOutcome (now : String) (ok : Bool) (r : ProjRec) : ProjRec :=
  if ok then
    { r with status := "synced", lastCheck := now,
             message := "Başarıyla senkronize edildi", progress := 100,
             currentOperation := "Tamamlandı" }
  else
    { r with status := "error", message := "Senkronizasyon hatası",
             progress := 0, currentOperation := "Hata oluştu" }

/-- The scheduler-visible slice of the global object: the busy flag, the
sync queue (insertion-ordered set), the registry, the run statistics and
whether this.config is loaded. -/
structure SchedState where
  isSyncing : Bool
  configLoaded : Bool
  queue : List String
  reg : List (String × ProjRec)
  completedProjects : Nat
  failedProjects : Nat
  totalProjects : Nat
deriving DecidableEq

/-- Intermediate state while a batch runs. -/
structure BatchSt where
  reg : List (String × ProjRec)
  completed : Nat
  failed : Nat
  queue : List String
  trace : List String
deriving DecidableEq

/-- The serial for-loop of processQueue (lines 704-755).  `out p` is the
boolean returned by syncProjectWithProgress for path p; `during`
lists, per project turn, the paths the environment enqueues while that
project is being synced (debounce timers firing, discovery); `trace`
records the processed paths in order. -/
def runBatch (now : String) (out : String → Bool) :
    List String → List (List String) → BatchSt → BatchSt
  | [], _, st => st
  | p :: rest, during, st =>
    let ok := out p
    let st1 : BatchSt :=
      { reg := updateReg st.reg p fun r => applyOutcome now ok (markSyncing r)
        completed := st.completed + (if ok then 1 else 0)
        failed := st.failed + (if ok then 0 else 1)
        queue := (during.headD []).foldl insertS st.queue
        trace := st.trace ++ [p] }
    runBatch now out rest during.tail st1

/-- processQueue (lines 678-773): abort when already syncing or when the
queue is empty; otherwise snapshot the queue into an ordered list, clear
it, reset the run statistics and run the serial batch.  Returns the new
state and the ordered list of processed paths. -/
def processQueue (now : String) (out : String → Bool) (during : List (List String))
    (st : SchedState) : SchedState × List String :=
  if st.isSyncing || st.queue.isEmpty then (st, [])
  else
    let snapshot := st.queue
    let r := runBatch now out snapshot during
      { reg := st.reg, completed := 0, failed := 0, queue := [], trace := [] }
    ({ st with isSyncing := false, queue := r.queue, reg := r.reg,
               completedProjects := r.completed, failedProjects := r.failed,
               totalProjects := snapshot.length }, r.trace)

/-- manualSync (lines 1101-1119): bail out when no config is loaded or a
batch is already running; otherwise add every registry path to the queue
and invoke processQueue at once. -/
def manualSync (now : String) (out : String → Bool) (during : List (List String))
    (st : SchedState) : SchedState × List String :=
  if st.configLoaded = false then (st, [])
  else if st.isSyncing then (st, [])
  else processQueue now out during
    { st with queue := (st.reg.map Prod.fst).foldl insertS st.queue }

/-! ### The per-project workflow (main.js, syncProjectWithProgress lines
776-974, createGitHubRepo lines 1195-1232)

Every external effect is an oracle input collected in `SyncEnv`; the two
GitHub calls take the repository name the workflow hands them, so the
call trace records which name was used. -/

/-- Result of the axios POST under createGitHubRepo: axios resolves for
2xx statuses and rejects otherwise, carrying error.response?.status
(none for transport failures) and a message. -/
inductive HttpOutcome where
  | success (status : Nat)
  | failure (status : Option Nat) (msg : String)
deriving DecidableEq

/-- Message thrown for a 401 (invalid token) response. -/
def tokenErrMsg : String := "GitHub token geçersiz."

/-- Message thrown for a 403 (rate limit) response. -/
def rateErrMsg : String := "GitHub API rate limit aşıldı."

/-- Message thrown for any other creation failure. -/
def createErrMsg (m : String) : String := "Repository oluşturma hatası: " ++ m

/-- createGitHubRepo (lines 1195-1232): a 2xx response resolves to
status == 201; a 422 rejection (name already exists) is returned as
success; 401 and 403 raise distinct labelled errors; anything else
raises the generic creation error. -/
def createGitHubRepo (r : HttpOutcome) : Except String Bool :=
  match r with
  | HttpOutcome.success st => Except.ok (st == 201)
  | HttpOutcome.failure st m =>
    if st = some 422 then Except.ok true
    else if st = some 401 then Except.error tokenErrMsg
    else if st = some 403 then Except.error rateErrMsg
    else Except.error (createErrMsg m)

/-- Does the haystack contain the needle as a contiguous run
(String.prototype.includes)? -/
def containsSeq (needle : List Char) : List Char → Bool
  | [] => needle.isEmpty
  | c :: rest => (needle.isPrefixOf (c :: rest)) || containsSeq needle rest

/-- The push-error test of lines 944: message.includes("upstream") ||
message.includes("no upstream") (the second disjunct is subsumed by the
first, as in the source). -/
def includesUpstream (msg : String) : Bool :=
  containsSeq "upstream".toList msg.toList || containsSeq "no upstream".toList msg.toList

/-- The push step (lines 933-960): try push origin main; on a
missing-upstream error retry exactly once with push -u; any other error
is fatal. -/
def pushOutcome (first retry : Except String Unit) : Bool :=
  match first with
  | Except.ok _ => true
  | Except.error msg =>
    if includesUpstream msg then
      match retry with
      | Except.ok _ => true
      | Except.error _ => false
    else false

/-- Oracle results for the external calls the workflow makes, in the
order the source makes them.  addRemoteR is consulted only for logging
(a failure there is a warning, lines 900-903), so it does not influence
the result. -/
structure SyncEnv where
  pathExists : Bool
  online : Bool
  checkRepo : List Char → Except String Bool
  createResp : List Char → HttpOutcome
  isRepoR : Except String Bool
  initRepoR : Except String Unit
  addRemoteR : Except String Unit
  statusR : Except String Nat
  commitR : Except String Unit
  pushR : Except String Unit
  pushUpstreamR : Except String Unit

/-- One remote-API call with the repository name it was given. -/
inductive ApiCall where
  | check (name : List Char)
  | create (name : List Char)
deriving DecidableEq

/-- syncProjectWithProgress (lines 776-974) reduced to its control flow:
returns the boolean handed back to processQueue together with the trace
of GitHub API calls.  The repository name is sanitizeRepoName of the
project name (line 823) and is passed on without any further check. -/
def syncProject (env : SyncEnv) (projectName : List Char) : Bool × List ApiCall :=
  if env.pathExists = false then (false, [])
  else
    let repoName := sanitizeRepoName projectName
    if env.online = false then (false, [])
    else
      match env.checkRepo repoName with
      | Except.error _ => (false, [ApiCall.check repoName])
      | Except.ok repoExists =>
        let calls :=
          if repoExists then [ApiCall.check repoName]
          else [ApiCall.check repoName, ApiCall.create repoName]
        let createOk :=
          if repoExists then true
          else
            match createGitHubRepo (env.createResp repoName) with
            | Except.ok _ => true
            | Except.error _ => false
        if createOk = false then (false, calls)
        else
          let isRepo :=
            match env.isRepoR with
            | Except.ok b => b
            | Except.error _ => false
          let initOk :=
            if isRepo then true
            else
              match env.initRepoR with
              | Except.ok _ => true
              | Except.error _ => false
          if initOk = false then (false, calls)
          else
            match env.statusR with
            | Except.error _ => (false, calls)
            | Except.ok changedFiles =>
              let commitOk :=
                if changedFiles = 0 then true
                else
                  match env.commitR with
                  | Except.ok _ => true
                  | Except.error _ => false
              if commitOk = false then (false, calls)
              else (pushOutcome env.pushR env.pushUpstreamR, calls)

/-! ### The published status snapshot (main.js, getDetailedStatus lines
976-996)

The snapshot spreads this.status, attaches the run statistics, maps the
registry to its public fields and exposes from the configuration only
{ username } (null when no config is loaded); the token never appears.
memoryUsage and uptime are process-level values independent of the
state and are left out of the embedding. -/

structure Config where
  username : String
  token : String
  watchPaths : List String
  ignoredPatterns : List String
deriving DecidableEq

structure ProjView where
  name : String
  path : String
  status : String
  message : String
  lastCheck : String
  lastModified : Nat
  hasGitRepo : Bool
  progress : Nat
  currentOperation : String
  error : Option String
deriving DecidableEq

structure DetailedStatus where
  phase : String
  message : String
  progress : Nat
  isRunning : Bool
  isSyncing : Bool
  networkOnline : Bool
  networkLastCheck : Nat
  transferTotalFiles : Nat
  transferUploadedFiles : Nat
  transferCurrentFile : String
  statsCompleted : Nat
  statsFailed : Nat
  statsTotal : Nat
  configUsername : Option String
  projects : List ProjView
deriving DecidableEq

/-- The full observable application state feeding the snapshot. -/
structure AppState where
  config : Option Config
  phase : String
  message : String
  progress : Nat
  isRunning : Bool
  isSyncing : Bool
  networkOnline : Bool
  networkLastCheck : Nat
  transferTotalFiles : Nat
  transferUploadedFiles : Nat
  transferCurrentFile : String
  statsCompleted : Nat
  statsFailed : Nat
  statsTotal : Nat
  projects : List (String × ProjRec)

def getDetailedStatus (st : AppState) : DetailedStatus :=
  { phase := st.phase
    message := st.message
    progress := st.progress
    isRunning := st.isRunning
    isSyncing := st.isSyncing
    networkOnline := st.networkOnline
    networkLastCheck := st.networkLastCheck
    transferTotalFiles := st.transferTotalFiles
    transferUploadedFiles := st.transferUploadedFiles
    transferCurrentFile := st.transferCurrentFile
    statsCompleted := st.statsCompleted
    statsFailed := st.statsFailed
    statsTotal := st.statsTotal
    configUsername := st.config.map Config.username
    projects := st.projects.map fun kv =>
      { name := kv.2.name
        path := kv.1
        status := kv.2.status
        message := kv.2.message
        lastCheck := kv.2.lastCheck
        lastModified := kv.2.lastModified
        hasGitRepo := kv.2.hasGitRepo
        progress := kv.2.progress
        currentOperation := kv.2.currentOperation
        error := kv.2.error } }

/-! ### Concrete objects used by counterexamples and witnesses -/

/-- A name whose trimmed form is 101 characters long and has a separator
in position 99: ninety-nine letters a, then a dot, then a letter. -/
def badName : List Char := List.replicate 99 'a' ++ ['.', 'a']

/-- A name with no character from the kept class at all. -/
def hashName : List Char := ['#', '#', '#']

/-- Oracle environment where every external call succeeds and the remote
repository already exists. -/
def envAllOk : SyncEnv :=
  { pathExists := true
    online := true
    checkRepo := fun _ => Except.ok true
    createResp := fun _ => HttpOutcome.success 201
    isRepoR := Except.ok true
    initRepoR := Except.ok ()
    addRemoteR := Except.ok ()
    statusR := Except.ok 0
    commitR := Except.ok ()
    pushR := Except.ok ()
    pushUpstreamR := Except.ok () }

/-- Environment where the remote is absent and its creation returns the
already-exists conflict (HTTP 422). -/
def envConflict : SyncEnv :=
  { envAllOk with
    checkRepo := fun _ => Except.ok false
    createResp := fun _ => HttpOutcome.failure (some 422) "name already exists" }

/-- Environment where the first push fails for lack of an upstream
branch and the upstream-setting retry succeeds. -/
def envUp : SyncEnv :=
  { envAllOk with
    pushR := Except.error "fatal: the current branch has no upstream branch"
    pushUpstreamR := Except.ok () }

/-- Sample registry record. -/
def projReady : ProjRec :=
  { name := "alpha"
    status := "ready"
    message := ""
    lastCheck := ""
    lastModified := 0
    hasGitRepo := true
    progress := 0
    currentOperation := ""
    error := none }

def alphaP : String := "alpha"

def betaP : String := "beta"

def gammaP : String := "gamma"

/-- Scheduler state with two queued projects and no batch running. -/
def stQueued : SchedState :=
  { isSyncing := false
    configLoaded := true
    queue := [alphaP, betaP]
    reg := [(alphaP, projReady), (betaP, projReady)]
    completedProjects := 0
    failedProjects := 0
    totalProjects := 2 }

/-- Scheduler state in the middle of a batch (isSyncing set), with a
loaded config, a known project and an empty queue. -/
def stBusy : SchedState :=
  { isSyncing := true
    configLoaded := true
    queue := []
    reg := [(alphaP, projReady)]
    completedProjects := 0
    failedProjects := 0
    totalProjects := 1 }

/-- Outcome oracle: alpha succeeds, everything else fails. -/
def outAlpha : String → Bool := fun p => p = alphaP

/-- Timestamp string used in witnesses. -/
def nowW : String := "12:00:00"

/-- During the first project's turn the environment enqueues gamma. -/
def duringGamma : List (List String) := [[gammaP], []]

/-- Event-loop state before the race: queue nonempty, two projects known
to the detector, nothing running. -/
def loopInit : LoopState :=
  { isSyncing := false, queueNonempty := true, detProjects := 2, detPhase := none }

/-- After the detection tick started its pass (zero of two projects
checked, suspended at an await). -/
def loopDetMid : LoopState :=
  { loopInit with detPhase := some 0 }

/-- After the batch started while the pass was suspended: a batch and a
detection pass in progress at the same time. -/
def loopBoth : LoopState :=
  { loopDetMid with isSyncing := true, queueNonempty := false }

/-- An event-loop state with a batch running and no pass active. -/
def loopBusy : LoopState :=
  { isSyncing := true, queueNonempty := true, detProjects := 2, detPhase := none }

/-- Sample application states for the status snapshot, sharing everything
except the configuration. -/
def appBase : AppState :=
  { config := none
    phase := "monitoring"
    message := "ok"
    progress := 0
    isRunning := true
    isSyncing := false
    networkOnline := true
    networkLastCheck := 0
    transferTotalFiles := 0
    transferUploadedFiles := 0
    transferCurrentFile := ""
    statsCompleted := 0
    statsFailed := 0
    statsTotal := 0
    projects := [(alphaP, projReady)] }

/-- Two configurations equal except for the access token. -/
def cfgA : Config :=
  { username := "kani", token := "ghp-secret-one", watchPaths := [], ignoredPatterns := [] }

def cfgB : Config :=
  { cfgA with token := "ghp-secret-two" }

/-! ## Theorems -/

/-! ### Helper lemmas about the sanitizer -/

theorem dropWhile_head_not (p : Char → Bool) :
    ∀ (l : List Char) {c : Char}, (l.dropWhile p).head? = some c → p c = false := by
  intro l
  induction l with
  | nil => intro c h; simp [List.dropWhile] at h
  | cons a rest ih =>
    intro c h
    rw [List.dropWhile_cons] at h
    by_cases hp : p a
    · exact ih (by simpa [hp] using h)
    · simp [hp] at h
      subst h
      simpa using hp

theorem mem_dropTrailSep {c : Char} : ∀ l : List Char, c ∈ dropTrailSep l → c ∈ l := by
  intro l
  induction l with
  | nil => intro h; simp [dropTrailSep] at h
  | cons a rest ih =>
    intro h
    rw [dropTrailSep] at h
    by_cases hg : (dropTrailSep rest).isEmpty && isSep a
    · simp [hg] at h
    · simp only [hg, if_false] at h
      rcases List.mem_cons.mp h with h1 | h2
      · exact h1 ▸ List.mem_cons_self a rest
      · exact List.mem_cons_of_mem a (ih h2)

theorem dropTrailSep_head {c : Char} :
    ∀ l : List Char, (dropTrailSep l).head? = some c → l.head? = some c := by
  intro l
  induction l with
  | nil => intro h; simp [dropTrailSep] at h
  | cons a rest _ =>
    intro h
    rw [dropTrailSep] at h
    by_cases hg : (dropTrailSep rest).isEmpty && isSep a
    · simp [hg] at h
    · simp [hg] at h
      simp [h]

theorem dropTrailSep_getLast {c : Char} :
    ∀ l : List Char, (dropTrailSep l).getLast? = some c → isSep c = false := by
  intro l
  induction l with
  | nil => intro h; simp [dropTrailSep] at h
  | cons a rest ih =>
    intro h
    rw [dropTrailSep] at h
    cases hr : dropTrailSep rest with
    | nil =>
      rw [hr] at h
      by_cases ha : isSep a
      · simp [ha] at h
      · simp [ha] at h
        rw [← h]
        simpa using ha
    | cons b r =>
      rw [hr] at h
      simp only [List.isEmpty_cons, Bool.false_and, if_false, List.getLast?_cons_cons] at h
      exact ih (hr ▸ h)

theorem head_take_pos {n : Nat} (hn : 0 < n) :
    ∀ l : List Char, (l.take n).head? = l.head? := by
  intro l
  cases l with
  | nil => simp
  | cons a rest =>
    cases n with
    | zero => omega
    | succ m => simp [List.take]

/-! ### Claim C1 -/

set_option maxRecDepth 20000 in
/-- Claim C1 (counterexample): sanitizeRepoName applied to ninety-nine
letters a, a dot and a letter a returns a 100-character string that ends
in a dot, so the output does have a trailing separator when truncation
cuts inside the trimmed string. -/
theorem sanitize_trailing_sep_cex :
    (sanitizeRepoName badName).getLast? = some '.' ∧
    isSep '.' = true ∧ (sanitizeRepoName badName).length = 100 := by
  refine ⟨?_, by decide, ?_⟩ <;> decide

/-- Claim C1 (amended): sanitizeRepoName is a pure function whose output
contains only characters from the class [a-z0-9-_.], has length at most
100 and never starts with a separator; it also never ends with a
separator except possibly when it was truncated to exactly 100
characters (truncation happens after end-trimming in the source). -/
theorem sanitizeRepoName_props (name : List Char) :
    (∀ c ∈ sanitizeRepoName name, isAllowed c = true) ∧
    (sanitizeRepoName name).length ≤ 100 ∧
    (∀ c, (sanitizeRepoName name).head? = some c → isSep c = false) ∧
    ((∀ c, (sanitizeRepoName name).getLast? = some c → isSep c = false) ∨
      (sanitizeRepoName name).length = 100) := by
  refine ⟨?_, ?_, ?_, ?_⟩
  · intro c hc
    have h1 : c ∈ trimSeps ((collapseWs (name.map Char.toLower)).filter isAllowed) :=
      List.take_subset _ _ hc
    have h2 : c ∈ ((collapseWs (name.map Char.toLower)).filter isAllowed).dropWhile isSep :=
      mem_dropTrailSep _ h1
    have h3 : c ∈ (collapseWs (name.map Char.toLower)).filter isAllowed :=
      (List.dropWhile_sublist isSep).subset h2
    exact List.of_mem_filter h3
  · simp only [sanitizeRepoName, List.length_take]
    omega
  · intro c hc
    rw [sanitizeRepoName, head_take_pos (by omega)] at hc
    exact dropWhile_head_not isSep _ (dropTrailSep_head _ hc)
  · by_cases hlen :
      (trimSeps ((collapseWs (name.map Char.toLower)).filter isAllowed)).length ≤ 100
    · left
      intro c hc
      rw [sanitizeRepoName, List.take_of_length_le hlen] at hc
      exact dropTrailSep_getLast _ hc
    · right
      simp only [sanitizeRepoName, List.length_take]
      omega

/-- Claim C1 (witness): the amended theorem evaluated at a sample name. -/
theorem sanitizeRepoName_props_witness :
    (sanitizeRepoName ['A', ' ', 'B']).length ≤ 100 :=
  (sanitizeRepoName_props ['A', ' ', 'B']).2.1

/-! ### Claim C2 -/

/-- While a timer armed by a call at time c is pending and the remaining
calls keep arriving within the quiet window, every call just re-arms the
timer; the single fire happens 3 units after the last call. -/
theorem debRun_armed :
    ∀ (cs : List Nat) (c : Nat) (st : DebRec),
      isBurst c cs = true →
      debRun { st with pendingDeadline := some (c + 3) } cs =
        { pendingDeadline := none, inQueue := true, status := "queued",
          enqueueTimes := st.enqueueTimes ++ [cs.getLastD c + 3] } := by
  intro cs
  induction cs with
  | nil =>
    intro c st _
    simp [debRun, debFire]
  | cons t rest ih =>
    intro c st h
    simp only [isBurst, Bool.and_eq_true, decide_eq_true_eq] at h
    have hch : isBurst t rest = true := h.2
    have hlt : ¬ (c + 3 ≤ t) := Nat.not_le.mpr h.1.2
    show debRun _ (t :: rest) = _
    rw [debRun]
    simp only [hlt, if_false]
    have : debCall t { st with pendingDeadline := some (c + 3) } =
        { st with pendingDeadline := some (t + 3) } := rfl
    rw [this, ih t st hch, List.getLastD_cons]

/-- Claim C2 (confirmed): for any nonempty burst of debouncedQueueAdd
calls in which every further call arrives strictly less than 3 time-units
after the previous one, the path is enqueued exactly once, exactly 3
time-units after the last call; on that fire the record status becomes
queued and the timer entry is removed.  Each call arms a timer due 3
units later, cancelling the previous one. -/
theorem debounce_coalesces (c : Nat) (cs : List Nat)
    (h : isBurst c cs = true) :
    debRun debInit (c :: cs) =
      { pendingDeadline := none, inQueue := true, status := "queued",
        enqueueTimes := [cs.getLastD c + 3] } ∧
    ∀ (t : Nat) (st : DebRec), (debCall t st).pendingDeadline = some (t + 3) := by
  constructor
  · have hstep : debRun debInit (c :: cs) =
        debRun { debInit with pendingDeadline := some (c + 3) } cs := rfl
    rw [hstep, debRun_armed cs c debInit h]
    simp [debInit]
  · intro t st
    rfl

/-- Claim C2 (witness): three calls at times 0, 1, 2 produce one enqueue
at time 5. -/
theorem debounce_coalesces_witness :
    isBurst 0 [1, 2] = true ∧
    debRun debInit [0, 1, 2] =
      { pendingDeadline := none, inQueue := true, status := "queued",
        enqueueTimes := [5] } :=
  ⟨by decide, (debounce_coalesces 0 [1, 2] (by decide)).1⟩

/-! ### Claim C3 -/

/-- Claim C3 (counterexample): from a state with a nonempty queue, the
detection tick starts a pass (two projects to check, zero checked, the
loop suspended at an await) and then the batch processor starts a batch,
reaching a state in which a detection pass and a batch with the busy
flag set are in progress at the same time. -/
theorem detector_batch_race_cex :
    Reach loopInit loopBoth ∧ loopBoth.isSyncing = true ∧
    loopBoth.detPhase = some 0 ∧ loopBoth.detProjects = 2 := by
  refine ⟨?_, rfl, rfl, rfl⟩
  have h1 : Step loopInit StepLabel.detTickStart loopDetMid :=
    Step.detTickStart loopInit rfl rfl
  have h2 : Step loopDetMid StepLabel.batchStart loopBoth :=
    Step.batchStart loopDetMid rfl rfl
  exact Reach.tail (Reach.tail (Reach.refl loopInit) h1) h2

/-- Claim C3 (amended): the busy flag works in one direction only.  While
isSyncing is set, no detection pass can start (the whole tick is
skipped), no further batch can start, and an idle detector stays idle;
but the detector sets no flag of its own, so a batch can begin while a
detection pass is partway through its projects (see the counterexample
reaching such a state). -/
theorem busy_flag_one_directional (s s' : LoopState) (l : StepLabel)
    (hs : s.isSyncing = true) :
    (¬ Step s StepLabel.detTickStart s') ∧
    (¬ Step s StepLabel.batchStart s') ∧
    (s.detPhase = none → Step s l s' → s'.detPhase = none) := by
  refine ⟨?_, ?_, ?_⟩
  · intro hstep
    cases hstep
    simp_all
  · intro hstep
    cases hstep
    simp_all
  · intro hd hstep
    cases hstep <;> simp_all

/-- Claim C3 (witness): with a batch running and the queue nonempty, a
second batch still cannot start. -/
theorem busy_flag_one_directional_witness :
    ¬ Step loopBusy StepLabel.batchStart loopBusy :=
  (busy_flag_one_directional loopBusy loopBusy StepLabel.batchStart rfl).2.1

/-! ### Helper lemmas about the batch processor -/

theorem insertS_mem {q : List String} {p : String} (hp : p ∈ q) : insertS q p = q := by
  simp [insertS, hp]

theorem mem_insertS {q : List String} {p a : String} :
    p ∈ insertS q a ↔ p ∈ q ∨ p = a := by
  by_cases ha : a ∈ q
  · simp only [insertS, ha, if_true]
    constructor
    · exact Or.inl
    · rintro (h | h)
      · exact h
      · exact h ▸ ha
  · simp [insertS, ha]

theorem mem_foldl_insertS {p : String} :
    ∀ (l : List String) (q : List String),
      p ∈ List.foldl insertS q l ↔ p ∈ q ∨ p ∈ l := by
  intro l
  induction l with
  | nil => intro q; simp
  | cons a rest ih =>
    intro q
    rw [List.foldl_cons, ih, mem_insertS]
    simp [or_assoc, or_comm]
    tauto

theorem runBatch_trace (now : String) (out : String → Bool) :
    ∀ (paths : List String) (during : List (List String)) (st : BatchSt),
      (runBatch now out paths during st).trace = st.trace ++ paths := by
  intro paths
  induction paths with
  | nil => intro during st; simp [runBatch]
  | cons p rest ih =>
    intro during st
    rw [runBatch, ih]
    simp

theorem runBatch_queue (now : String) (out : String → Bool) :
    ∀ (paths : List String) (during : List (List String)) (st : BatchSt),
      (runBatch now out paths during st).queue =
        List.foldl insertS st.queue ((during.take paths.length).flatten) := by
  intro paths
  induction paths with
  | nil => intro during st; simp [runBatch]
  | cons p rest ih =>
    intro during st
    cases during with
    | nil =>
      rw [runBatch, ih]
      simp
    | cons d ds =>
      rw [runBatch, ih]
      simp [List.foldl_append]

theorem runBatch_completed (now : String) (out : String → Bool) :
    ∀ (paths : List String) (during : List (List String)) (st : BatchSt),
      (runBatch now out paths during st).completed = st.completed + paths.countP out := by
  intro paths
  induction paths with
  | nil => intro during st; simp [runBatch]
  | cons p rest ih =>
    intro during st
    rw [runBatch, ih, List.countP_cons]
    cases h : out p <;> simp [h] <;> omega

theorem runBatch_failed (now : String) (out : String → Bool) :
    ∀ (paths : List String) (during : List (List String)) (st : BatchSt),
      (runBatch now out paths during st).failed =
        st.failed + paths.countP (fun p => !out p) := by
  intro paths
  induction paths with
  | nil => intro during st; simp [runBatch]
  | cons p rest ih =>
    intro during st
    rw [runBatch, ih, List.countP_cons]
    cases h : out p <;> simp [h] <;> omega

theorem lookupA_updateReg_self :
    ∀ (reg : List (String × ProjRec)) (p : String) (f : ProjRec → ProjRec),
      lookupA (updateReg reg p f) p = (lookupA reg p).map f := by
  intro reg
  induction reg with
  | nil => intro p f; simp [updateReg, lookupA]
  | cons kv rest ih =>
    intro p f
    by_cases h : kv.1 = p
    · simp [updateReg, lookupA, h]
    · simp only [updateReg, List.map_cons, if_neg h]
      rw [lookupA, lookupA, if_neg h, if_neg h]
      exact ih p f

theorem lookupA_updateReg_ne :
    ∀ (reg : List (String × ProjRec)) (p q : String) (f : ProjRec → ProjRec),
      p ≠ q → lookupA (updateReg reg q f) p = lookupA reg p := by
  intro reg
  induction reg with
  | nil => intro p q f _; simp [updateReg, lookupA]
  | cons kv rest ih =>
    intro p q f hpq
    by_cases h : kv.1 = q
    · simp only [updateReg, List.map_cons, if_pos h]
      rw [lookupA, lookupA, if_neg (by rw [h]; exact fun hh => hpq hh.symm),
        if_neg (by rw [h]; exact fun hh => hpq hh.symm)]
      exact ih p q f hpq
    · simp only [updateReg, List.map_cons, if_neg h]
      rw [lookupA, lookupA]
      by_cases h2 : kv.1 = p
      · simp [h2]
      · rw [if_neg h2, if_neg h2]
        exact ih p q f hpq

theorem runBatch_reg_not_mem (now : String) (out : String → Bool) :
    ∀ (paths : List String) (during : List (List String)) (st : BatchSt) (p : String),
      p ∉ paths →
      lookupA (runBatch now out paths during st).reg p = lookupA st.reg p := by
  intro paths
  induction paths with
  | nil => intro during st p _; simp [runBatch]
  | cons q rest ih =>
    intro during st p hp
    rw [runBatch, ih _ _ _ (fun hmem => hp (List.mem_cons_of_mem q hmem))]
    have hne : p ≠ q := fun he => hp (by rw [he]; exact List.mem_cons_self q rest)
    simpa using lookupA_updateReg_ne st.reg p q _ hne

theorem runBatch_reg_mem (now : String) (out : String → Bool) :
    ∀ (paths : List String) (during : List (List String)) (st : BatchSt) (p : String),
      p ∈ paths → paths.Nodup →
      lookupA (runBatch now out paths during st).reg p =
        (lookupA st.reg p).map (fun r => applyOutcome now (out p) (markSyncing r)) := by
  intro paths
  induction paths with
  | nil => intro during st p hp _; simp at hp
  | cons q rest ih =>
    intro during st p hp hnd
    rcases List.mem_cons.mp hp with he | hmem
    · subst he
      have hnotin : p ∉ rest := (List.nodup_cons.mp hnd).1
      rw [runBatch, runBatch_reg_not_mem now out rest _ _ p hnotin]
      simpa using lookupA_updateReg_self st.reg p (fun r => applyOutcome now (out p) (markSyncing r))
    · rw [runBatch, ih _ _ _ hmem (List.nodup_cons.mp hnd).2]
      congr 1
      have hne : p ≠ q := fun he => (List.nodup_cons.mp hnd).1 (by rw [← he]; exact hmem)
      simpa using lookupA_updateReg_ne st.reg p q _ hne

theorem processQueue_not_busy (now : String) (out : String → Bool)
    (during : List (List String)) (st : SchedState)
    (h1 : st.isSyncing = false) (h2 : st.queue ≠ []) :
    processQueue now out during st =
      (let r := runBatch now out st.queue during
        { reg := st.reg, completed := 0, failed := 0, queue := [], trace := [] }
       ({ st with isSyncing := false, queue := r.queue, reg := r.reg,
                  completedProjects := r.completed, failedProjects := r.failed,
                  totalProjects := st.queue.length }, r.trace)) := by
  have hq : st.queue.isEmpty = false := List.isEmpty_eq_false.mpr h2
  simp [processQueue, h1, hq]

theorem processQueue_trace (now : String) (out : String → Bool)
    (during : List (List String)) (st : SchedState)
    (h1 : st.isSyncing = false) (h2 : st.queue ≠ []) :
    (processQueue now out during st).2 = st.queue := by
  rw [processQueue_not_busy now out during st h1 h2]
  simp [runBatch_trace]

/-! ### Claim C4 -/

/-- Claim C4 (confirmed): the sync queue has set semantics — adding an
already-queued path leaves the queue unchanged; at the start of a batch
the queue is snapshotted into an ordered list and emptied, the batch
processes exactly that snapshot, and the paths added to the queue while
the batch runs are exactly the members of the queue left for the next
batch, none of them processed in this one. -/
theorem queue_set_and_snapshot (now : String) (out : String → Bool)
    (during : List (List String)) (st : SchedState)
    (h1 : st.isSyncing = false) (h2 : st.queue ≠ []) :
    (∀ (q : List String) (p : String), p ∈ q → insertS q p = q) ∧
    (processQueue now out during st).2 = st.queue ∧
    (processQueue now out during st).1.queue =
      List.foldl insertS [] ((during.take st.queue.length).flatten) ∧
    (∀ p : String, p ∈ (processQueue now out during st).1.queue ↔
      p ∈ (during.take st.queue.length).flatten) := by
  have hqueue : (processQueue now out during st).1.queue =
      List.foldl insertS [] ((during.take st.queue.length).flatten) := by
    rw [processQueue_not_busy now out during st h1 h2]
    simp [runBatch_queue]
  refine ⟨fun q p hp => insertS_mem hp, processQueue_trace now out during st h1 h2,
    hqueue, fun p => ?_⟩
  rw [hqueue, mem_foldl_insertS]
  simp

/-- Claim C4 (witness): the theorem at a state with two queued projects,
with a third path enqueued during the first turn. -/
theorem queue_set_and_snapshot_witness :
    stQueued.isSyncing = false ∧ stQueued.queue ≠ [] ∧
    (processQueue nowW outAlpha duringGamma stQueued).2 = stQueued.queue :=
  ⟨rfl, by decide,
    (queue_set_and_snapshot nowW outAlpha duringGamma stQueued rfl (by decide)).2.1⟩

/-! ### Claim C5 -/

/-- Claim C5 (confirmed): a batch processes every path of the snapshot in
snapshot order whatever the per-project boolean outcomes are — a failure
never aborts the rest of the batch; each project's registry record is
updated from its own outcome (true: status synced and progress 100,
false: status error and progress 0), the completed counter ends at the
number of successes and the failed counter at the number of failures. -/
theorem batch_serial_no_abort (now : String) (out : String → Bool)
    (during : List (List String)) (st : SchedState)
    (h1 : st.isSyncing = false) (h2 : st.queue ≠ []) (h3 : st.queue.Nodup) :
    (processQueue now out during st).2 = st.queue ∧
    (processQueue now out during st).1.totalProjects = st.queue.length ∧
    (processQueue now out during st).1.completedProjects = st.queue.countP out ∧
    (processQueue now out during st).1.failedProjects =
      st.queue.countP (fun p => !out p) ∧
    (∀ p ∈ st.queue, lookupA (processQueue now out during st).1.reg p =
      (lookupA st.reg p).map (fun r => applyOutcome now (out p) (markSyncing r))) ∧
    (∀ r : ProjRec, (applyOutcome now true r).status = "synced" ∧
      (applyOutcome now true r).progress = 100 ∧
      (applyOutcome now false r).status = "error" ∧
      (applyOutcome now false r).progress = 0) := by
  refine ⟨processQueue_trace now out during st h1 h2, ?_, ?_, ?_, ?_, ?_⟩
  · rw [processQueue_not_busy now out during st h1 h2]
  · rw [processQueue_not_busy now out during st h1 h2]
    simp [runBatch_completed]
  · rw [processQueue_not_busy now out during st h1 h2]
    simp [runBatch_failed]
  · intro p hp
    rw [processQueue_not_busy now out during st h1 h2]
    simpa using runBatch_reg_mem now out st.queue during _ p hp h3
  · intro r
    refine ⟨rfl, rfl, rfl, rfl⟩

/-- Claim C5 (witness): with outcomes alpha-succeeds / beta-fails, the
completed counter ends at the number of successful snapshot entries. -/
theorem batch_serial_no_abort_witness :
    (processQueue nowW outAlpha [] stQueued).1.completedProjects =
      stQueued.queue.countP outAlpha :=
  (batch_serial_no_abort nowW outAlpha [] stQueued rfl (by decide) (by decide)).2.2.1

/-! ### Claim C8 -/

/-- Claim C8 (counterexample): with configuration loaded, a nonempty
registry and a batch already in progress (isSyncing set), manualSync
returns the state unchanged: nothing is enqueued (the queue stays empty)
and nothing is processed, contradicting the claim that the registry
paths are enqueued even while a batch is in progress. -/
theorem manualSync_busy_noop_cex :
    manualSync nowW outAlpha [] stBusy = (stBusy, []) ∧
    (manualSync nowW outAlpha [] stBusy).1.queue = [] ∧
    stBusy.reg ≠ [] ∧ stBusy.configLoaded = true ∧ stBusy.isSyncing = true := by
  refine ⟨rfl, rfl, by decide, rfl, rfl⟩

/-- Claim C8 (amended): when configuration is loaded and no batch is in
progress, manual sync equals adding every registry path to the sync
queue and immediately invoking the batch processor, and every registry
path is processed in that immediate batch; when a batch is already in
progress manual sync is a no-op that enqueues nothing (see the
counterexample). -/
theorem manualSync_runs_all (now : String) (out : String → Bool)
    (during : List (List String)) (st : SchedState)
    (hc : st.configLoaded = true) (hs : st.isSyncing = false) :
    manualSync now out during st =
      processQueue now out during
        { st with queue := (st.reg.map Prod.fst).foldl insertS st.queue } ∧
    ∀ p ∈ st.reg.map Prod.fst, p ∈ (manualSync now out during st).2 := by
  have heq : manualSync now out during st =
      processQueue now out during
        { st with queue := (st.reg.map Prod.fst).foldl insertS st.queue } := by
    simp [manualSync, hc, hs]
  refine ⟨heq, fun p hp => ?_⟩
  have hpq : p ∈ (st.reg.map Prod.fst).foldl insertS st.queue :=
    (mem_foldl_insertS _ _).mpr (Or.inr hp)
  have hne : (st.reg.map Prod.fst).foldl insertS st.queue ≠ [] :=
    List.ne_nil_of_mem hpq
  have htr := processQueue_trace now out during
    { st with queue := (st.reg.map Prod.fst).foldl insertS st.queue } hs hne
  rw [heq, htr]
  exact hpq

/-- Claim C8 (witness): with no batch running, manual sync processes the
registered path alpha at once. -/
theorem manualSync_runs_all_witness :
    alphaP ∈ (manualSync nowW outAlpha [] stQueued).2 :=
  (manualSync_runs_all nowW outAlpha [] stQueued rfl rfl).2 alphaP (by decide)

/-! ### Claim C6 -/

/-- Claim C6 (confirmed): createGitHubRepo turns the 422 conflict
(repository already exists) into success; a 401 raises the invalid-token
error and a 403 the rate-limit error, two distinct labels; every other
failure raises the generic creation error; and the workflow passes the
creation step and completes whenever the remote is newly created (201)
or already exists (422). -/
theorem createRepo_conflict_is_success :
    (∀ m : String, createGitHubRepo (HttpOutcome.failure (some 422) m) = Except.ok true) ∧
    (∀ m : String, createGitHubRepo (HttpOutcome.failure (some 401) m) =
      Except.error tokenErrMsg) ∧
    (∀ m : String, createGitHubRepo (HttpOutcome.failure (some 403) m) =
      Except.error rateErrMsg) ∧
    tokenErrMsg ≠ rateErrMsg ∧
    (∀ (stc : Option Nat) (m : String),
      stc ≠ some 422 → stc ≠ some 401 → stc ≠ some 403 →
      createGitHubRepo (HttpOutcome.failure stc m) = Except.error (createErrMsg m)) ∧
    (∀ (env : SyncEnv) (nm : List Char) (m : String),
      env.pathExists = true → env.online = true →
      env.checkRepo (sanitizeRepoName nm) = Except.ok false →
      (env.createResp (sanitizeRepoName nm) = HttpOutcome.failure (some 422) m ∨
        env.createResp (sanitizeRepoName nm) = HttpOutcome.success 201) →
      env.isRepoR = Except.ok true → env.statusR = Except.ok 0 →
      env.pushR = Except.ok () →
      (syncProject env nm).1 = true) := by
  refine ⟨fun m => rfl, fun m => rfl, fun m => rfl, by decide, ?_, ?_⟩
  · intro stc m h1 h2 h3
    simp [createGitHubRepo, h1, h2, h3]
  · intro env nm m h1 h2 h3 h4 h5 h6 h7
    rcases h4 with h4 | h4 <;>
      simp [syncProject, h1, h2, h3, h4, h5, h6, h7, createGitHubRepo, pushOutcome]

/-- Claim C6 (witness): the continuation conjunct at a concrete
environment whose creation call answers with the 422 conflict. -/
theorem createRepo_conflict_is_success_witness :
    (syncProject envConflict ['a']).1 = true :=
  createRepo_conflict_is_success.2.2.2.2.2 envConflict ['a'] "name already exists"
    rfl rfl rfl (Or.inl rfl) rfl rfl rfl

/-! ### Claim C7 -/

/-- Claim C7 (confirmed): in the push step, a first push that succeeds
needs no retry; a first push failing with a missing-upstream message is
retried exactly once with the upstream-setting push and the project
succeeds iff that retry succeeds; a failure without the upstream marker
is fatal at once — the result is false and does not depend on the retry
oracle at all; and once the earlier steps pass, the workflow result is
exactly this push outcome. -/
theorem push_missing_upstream_retry :
    (∀ retry : Except String Unit, pushOutcome (Except.ok ()) retry = true) ∧
    (∀ msg : String, includesUpstream msg = true →
      pushOutcome (Except.error msg) (Except.ok ()) = true) ∧
    (∀ (msg e : String), includesUpstream msg = true →
      pushOutcome (Except.error msg) (Except.error e) = false) ∧
    (∀ (msg : String) (r₁ r₂ : Except String Unit), includesUpstream msg = false →
      pushOutcome (Except.error msg) r₁ = false ∧
      pushOutcome (Except.error msg) r₁ = pushOutcome (Except.error msg) r₂) ∧
    (∀ (env : SyncEnv) (nm : List Char),
      env.pathExists = true → env.online = true →
      env.checkRepo (sanitizeRepoName nm) = Except.ok true →
      env.isRepoR = Except.ok true → env.statusR = Except.ok 0 →
      (syncProject env nm).1 = pushOutcome env.pushR env.pushUpstreamR) := by
  refine ⟨fun retry => rfl, ?_, ?_, ?_, ?_⟩
  · intro msg h
    simp [pushOutcome, h]
  · intro msg e h
    simp [pushOutcome, h]
  · intro msg r₁ r₂ h
    exact ⟨by simp [pushOutcome, h], by simp [pushOutcome, h]⟩
  · intro env nm h1 h2 h3 h4 h5
    simp [syncProject, h1, h2, h3, h4, h5]

/-- Claim C7 (witness): the workflow-linkage conjunct at an environment
whose first push reports a missing upstream and whose retry succeeds. -/
theorem push_missing_upstream_retry_witness :
    (syncProject envUp ['a']).1 = pushOutcome envUp.pushR envUp.pushUpstreamR :=
  push_missing_upstream_retry.2.2.2.2 envUp ['a'] rfl rfl rfl rfl rfl

/-! ### Claim C9 -/

/-- Claim C9 (confirmed): the published snapshot depends on the
configuration only through the username — two configurations with the
same username and different tokens, in otherwise equal states, give
identical snapshots, and without configuration the config view is null;
the token is never observable in the status. -/
theorem status_hides_token (st : AppState) (c₁ c₂ : Config)
    (h : c₁.username = c₂.username) :
    getDetailedStatus { st with config := some c₁ } =
      getDetailedStatus { st with config := some c₂ } ∧
    (getDetailedStatus { st with config := none }).configUsername = none := by
  constructor
  · simp [getDetailedStatus, h]
  · rfl

/-- Claim C9 (witness): two configurations that differ only in the
token give the same snapshot. -/
theorem status_hides_token_witness :
    getDetailedStatus { appBase with config := some cfgA } =
      getDetailedStatus { appBase with config := some cfgB } :=
  (status_hides_token appBase cfgA cfgB rfl).1

/-! ### Claim C10 -/

/-- Claim C10 (confirmed): a project name with no kept character — three
hash marks — sanitizes to the empty string, and the workflow hands that
empty string to the remote-repository check and completes successfully:
no validation or rejection of the empty repository name happens
anywhere on the path. -/
theorem empty_repo_name_used :
    sanitizeRepoName hashName = [] ∧
    syncProject envAllOk hashName = (true, [ApiCall.check []]) :=
  ⟨rfl, rfl⟩

end GitAutoSync
